import Mathlib

/-!
Verification of the go-tenkft client library (a Go wrapper around the
10000ft HTTP API) via a shallow embedding of its transport executor
(`utils.Fetch`, `utils.NewFetchOpts`), its client facade (`NewClient`,
`DeleteUser`, `DeleteProject`, `CreateUserTags`, `CreateProjectTags`,
`GetProjects`, `GetAllProjects`, `GetLeaveTypes`, `GetAllLeaveTypes`)
and its paging helpers (`Paging.HasNext`, `Paging.GetNextPage`).

Modeling conventions:
* HTTP responses received from the network are a stream `rs : Nat → Response`
  consumed in request order together with a cursor `i : Nat`; the URL, method,
  body and headers of a request do not influence which response is received
  (the stream position does), which suffices for the control-flow properties
  proved here.
* Go `int` fields are `Int`; retry budgets are run through `Int.toNat`
  because the Go code only ever tests `MaxRetries > 0` and decrements under
  that guard, so only the positive part of the value is observable.
* Reading a FRESH response body (`ioutil.ReadAll` on a string body) is
  modeled as always succeeding; re-reading a body that a nested terminal
  read already drained and closed fails, yielding the status-only
  `could not parse response text` error (see `fetchAux`).
  `json.Unmarshal` / `json.Marshal` belong to the Go standard library
  (not to this repository) and are taken as parameters (`dec`, `mkBody`)
  of the operations that use them.
* Go's `time.Sleep` calls are recorded as `Event.sleep` entries in a trace;
  each issued HTTP request is recorded as `Event.request`.
* Go maps of options are association lists; `mapSet` is Go's `m[k] = v`
  (replace or append) and `mapGet` is Go's `m[k]` lookup.  Go's map
  iteration order is unspecified; `queryfy` serializes in list order,
  one admissible order.
-/

/-- One received HTTP response: `http.Response` restricted to the fields the
library reads (`StatusCode` and the body, already read to a string). -/
structure Response where
  StatusCode : Int
  Body : String
deriving Repr, DecidableEq

/-- The terminal errors built by `Fetch` for a non-2xx response with no
retry budget left, kept as structured data:
* `nonOK`: `fmt.Errorf("Non OK status Code: %v, body: %v", ...)`, built when
  `ioutil.ReadAll(resp.Body)` succeeds (a fresh, still-unread body);
* `nonOKUnreadable`: `fmt.Errorf("Non OK status code %v and could not parse
  response text", ...)`, built when the body read fails — which happens when
  the response came back from the 429 branch's recursive call, whose own
  terminal processing already drained and closed the body. -/
inductive FetchError where
  | nonOK (status : Int) (body : String)
  | nonOKUnreadable (status : Int)
deriving Repr, DecidableEq

/-- Observable side effects of `Fetch`: HTTP requests issued and
`time.Sleep` waits (argument in seconds). -/
inductive Event where
  | request
  | sleep (seconds : Nat)
deriving Repr, DecidableEq

/-- Whether a trace entry is an issued HTTP request. -/
def Event.isRequest : Event → Bool
  | .request => true
  | .sleep _ => false

/-- Result of one `Fetch` invocation: the returned `*http.Response`, the
returned error, the stream cursor after the consumed responses, and the
trace of requests/sleeps in order. -/
structure FetchOut where
  resp : Response
  err : Option FetchError
  next : Nat
  trace : List Event
deriving Repr, DecidableEq

/-- Number of HTTP requests issued during one `Fetch` invocation. -/
def FetchOut.requests (o : FetchOut) : Nat :=
  o.trace.countP Event.isRequest

/-- `utils.FetchOpts`: URL, method, body, headers and the retry budget. -/
structure FetchOpts where
  URL : String
  Method : String
  Body : String
  Headers : List (String × String)
  MaxRetries : Int
deriving Repr, DecidableEq

/-- The recursive core of `utils.FetchOpts.Fetch`, with the retry budget as a
`Nat`.  Mirrors the Go control flow: receive a response; if it is a 429 and
budget remains (`MaxRetries > 0`), decrement, sleep 10s and re-issue the
request recursively; then, on the response now held and with the budget now
held, if the status is outside [200,299] either decrement, sleep 2s and
re-issue recursively when budget remains, or build the terminal
terminal error from that response.  A 2xx response is returned with the
error of whichever call produced it (`nil` for a fresh response).
The three budget patterns `0`, `1`, `b+2` spell out the `MaxRetries > 0`
guards: with budget `0` neither retry branch runs; with budget `1` the
429 branch consumes the whole budget so a still-failing response after it is
terminal; with budget `b+2` both branches can run.
Body state in the terminal branch: a fresh response's body is still
unread, so `ioutil.ReadAll` succeeds and the error embeds the body
(`FetchError.nonOK`).  The one place the terminal branch processes a
response it did not itself receive is the budget-1 429 case: there the
response came back from the budget-0 recursive call, which (being non-2xx
in its own terminal branch) already drained and CLOSED the body, so the
outer re-read fails and Go returns the status-only
`could not parse response text` error (`FetchError.nonOKUnreadable`,
and no `Close` on that return path).  With budget `b+2` the 429 branch's
still-failing result goes to the general retry branch instead, so no other
path re-reads a consumed body. -/
def fetchAux (rs : Nat → Response) : Nat → Nat → FetchOut
  | 0, i =>
    if (rs i).StatusCode < 200 ∨ 299 < (rs i).StatusCode then
      ⟨rs i, some (.nonOK (rs i).StatusCode (rs i).Body), i + 1, [.request]⟩
    else
      ⟨rs i, none, i + 1, [.request]⟩
  | 1, i =>
    if (rs i).StatusCode = 429 then
      let r1 := fetchAux rs 0 (i + 1)
      if r1.resp.StatusCode < 200 ∨ 299 < r1.resp.StatusCode then
        ⟨r1.resp, some (.nonOKUnreadable r1.resp.StatusCode), r1.next,
          .request :: .sleep 10 :: r1.trace⟩
      else
        ⟨r1.resp, r1.err, r1.next, .request :: .sleep 10 :: r1.trace⟩
    else
      if (rs i).StatusCode < 200 ∨ 299 < (rs i).StatusCode then
        let r2 := fetchAux rs 0 (i + 1)
        ⟨r2.resp, r2.err, r2.next, .request :: .sleep 2 :: r2.trace⟩
      else
        ⟨rs i, none, i + 1, [.request]⟩
  | b + 2, i =>
    if (rs i).StatusCode = 429 then
      let r1 := fetchAux rs (b + 1) (i + 1)
      if r1.resp.StatusCode < 200 ∨ 299 < r1.resp.StatusCode then
        let r2 := fetchAux rs b r1.next
        ⟨r2.resp, r2.err, r2.next,
          .request :: .sleep 10 :: r1.trace ++ .sleep 2 :: r2.trace⟩
      else
        ⟨r1.resp, r1.err, r1.next, .request :: .sleep 10 :: r1.trace⟩
    else
      if (rs i).StatusCode < 200 ∨ 299 < (rs i).StatusCode then
        let r2 := fetchAux rs (b + 1) (i + 1)
        ⟨r2.resp, r2.err, r2.next, .request :: .sleep 2 :: r2.trace⟩
      else
        ⟨rs i, none, i + 1, [.request]⟩

/-- `utils.FetchOpts.Fetch` against a response stream `rs` starting at
cursor `i`. -/
def FetchOpts.Fetch (o : FetchOpts) (rs : Nat → Response) (i : Nat) : FetchOut :=
  fetchAux rs o.MaxRetries.toNat i

/-- `utils.NewFetchOpts`: rejects an empty URL, defaults an empty method to
`"GET"`, and stores body, headers and the retry budget unchanged. -/
def NewFetchOpts (url method body : String) (headers : List (String × String))
    (maxRetries : Int) : Except String FetchOpts :=
  if url = "" then
    .error "URL cannot be empty"
  else
    .ok { URL := url
          Method := if method = "" then "GET" else method
          Body := body
          Headers := headers
          MaxRetries := maxRetries }

/-- Production environment URL constant. -/
def Production : String := "https://api.10000ft.com/api/v1"

/-- Staging environment URL constant. -/
def Staging : String := "https://vnext.10000ft.com/api/v1"

/-- `tenkft.Client`. -/
structure Client where
  token : String
  env : String
  MaxRetries : Int
deriving Repr, DecidableEq

/-- `tenkft.NewClient`: rejects any environment other than `Production` or
`Staging`.  A pure constructor: it takes no response stream, so no request
can be issued by it. -/
def NewClient (token env : String) : Except String Client :=
  if env ≠ Production ∧ env ≠ Staging then
    .error ("env must be either " ++ Production ++ ", or " ++ Staging)
  else
    .ok { token := token, env := env, MaxRetries := 0 }

/-- `tenkft.Paging`. -/
structure Paging where
  PerPage : Int
  Page : Int
  Previous : String
  Self : String
  Next : String
deriving Repr, DecidableEq

/-- The zero value `Paging{}` of the Go struct. -/
def emptyPaging : Paging := ⟨0, 0, "", "", ""⟩

/-- `Paging.HasNext`: `p.Next != "null" && p.Next != ""`. -/
def Paging.HasNext (p : Paging) : Bool :=
  p.Next != "null" && p.Next != ""

/-- `Paging.GetNextPage`: `p.Page + 1`. -/
def Paging.GetNextPage (p : Paging) : Int :=
  p.Page + 1

/-- Go map assignment `m[k] = v` on an association list: replace the binding
if the key is present, otherwise append it. -/
def mapSet : List (String × String) → String → String → List (String × String)
  | [], k, v => [(k, v)]
  | (k', v') :: rest, k, v =>
    if k' = k then (k, v) :: rest else (k', v') :: mapSet rest k v

/-- Go map lookup `m[k]` on an association list. -/
def mapGet : List (String × String) → String → Option String
  | [], _ => none
  | (k', v') :: rest, k => if k' = k then some v' else mapGet rest k

/-- `tenkft.queryfy`: join the options as `k=v` pairs with `&`.  Go iterates
the map in unspecified order; list order is one admissible order. -/
def queryfy (opts : List (String × String)) : String :=
  String.intercalate "&" (opts.map fun kv => kv.1 ++ "=" ++ kv.2)

/-- `tenkft.baseTag`: the writable sub-object of a tag. -/
structure baseTag where
  Value : String
deriving Repr, DecidableEq

/-- `tenkft.Tag`: the embedded `*baseTag` is `none` when the pointer is nil. -/
structure Tag where
  base : Option baseTag
  ID : Int
deriving Repr, DecidableEq

/-- `tenkft.Tags`. -/
structure Tags where
  Data : List Tag
  Paging : Option Paging
deriving Repr, DecidableEq

/-- `tenkft.baseProject`: the caller-writable sub-object of a project
(the fields serialized on create/update). -/
structure baseProject where
  Archived : Bool
  Name : String
  EndsAt : String
  StartsAt : String
  Description : String
  Client : String
  ProjectState : String
  PhaseName : String
  ProjectCode : String
deriving Repr, DecidableEq

/-- The Go zero value `baseProject{}`: all fields at their zero values. -/
def baseProjectZero : baseProject := ⟨false, "", "", "", "", "", "", "", ""⟩

/-- `tenkft.Project`, restricted to the fields read or written by the
operations modeled here: the embedded `*baseProject` (`none` when nil), the
server-assigned `ID` used in URLs, and `Tags` used by batch tag creation.
The remaining fields of the Go struct are server-assigned and are never read
by any modeled operation. -/
structure Project where
  base : Option baseProject
  ID : Int
  Tags : Tags
deriving Repr, DecidableEq

/-- `tenkft.baseUser`: the caller-writable sub-object of a user.  The Go
`interface{}` fields (`HireDate`, `MobilePhone`) are opaque JSON payloads
modeled as their raw text. -/
structure baseUser where
  Archived : Bool
  Discipline : String
  Email : String
  FirstName : String
  HireDate : String
  LastName : String
  Location : String
  MobilePhone : String
  Role : String
  BillabilityTarget : Float
deriving Repr

/-- `tenkft.User`, restricted to the fields read or written by the
operations modeled here (see `Project`). -/
structure User where
  base : Option baseUser
  ID : Int
  Tags : Tags
deriving Repr

/-- `tenkft.Projects`: the collection envelope.  `Paging` is a nilable
pointer in Go, hence an `Option`. -/
structure Projects where
  Data : List Project
  Paging : Option Paging
deriving Repr, DecidableEq

/-- `tenkft.LeaveType`.  The Go field `Type` is spelled `Type'` because
`Type` is reserved in Lean. -/
structure LeaveType where
  ID : Int
  Description : String
  GUID : String
  Name : String
  DeletedAt : String
  CreatedAt : String
  UpdatedAt : String
  Type' : String
deriving Repr, DecidableEq

/-- `tenkft.LeaveTypes`: the collection envelope.  Its Go zero value
`LeaveTypes{}` has a nil `Paging` pointer. -/
structure LeaveTypes where
  Data : List LeaveType
  Paging : Option Paging
deriving Repr, DecidableEq

/-- An error returned by a client-facade operation: fetch-options
construction failure, a transport-executor error, or a `json.Unmarshal`
failure. -/
inductive CallError where
  | optsErr (msg : String)
  | fetchErr (e : FetchError)
  | decodeErr (msg : String)
deriving Repr, DecidableEq

/-- One write call observed by the server: URL, method and the serialized
writable body.  `json.Marshal` of the base sub-object is modeled as the base
value itself (`none` encodes a nil pointer, which marshals as JSON null). -/
structure UserWrite where
  url : String
  method : String
  body : Option baseUser
deriving Repr

/-- One project write call (see `UserWrite`). -/
structure ProjectWrite where
  url : String
  method : String
  body : Option baseProject
deriving Repr, DecidableEq

/-- `Client.UpdateUser`: one `PUT /users/<id>` whose body is
`json.Marshal(u.baseUser)`.  The HTTP exchange and the decoding of the
response into `u` do not affect which body is sent, so the model returns
the write calls performed. -/
def Client.UpdateUser (c : Client) (u : User) : List UserWrite :=
  [{ url := c.env ++ "/users/" ++ toString u.ID, method := "PUT",
     body := u.base }]

/-- `Client.DeleteUser`: sets `u.Archived = true` through the embedded
`*baseUser` (a nil-pointer dereference when the base is nil, hence `none`),
then calls `UpdateUser`.  Returns the mutated user and the write calls. -/
def Client.DeleteUser (c : Client) (u : User) :
    Option (User × List UserWrite) :=
  match u.base with
  | none => none
  | some b =>
    let u' : User := { u with base := some { b with Archived := true } }
    some (u', c.UpdateUser u')

/-- `Client.UpdateProject`: one `PUT /projects/<id>` whose body is
`json.Marshal(p.baseProject)` (see `Client.UpdateUser`). -/
def Client.UpdateProject (c : Client) (p : Project) : List ProjectWrite :=
  [{ url := c.env ++ "/projects/" ++ toString p.ID, method := "PUT",
     body := p.base }]

/-- `Client.DeleteProject`: replaces the embedded base with the fresh
composite literal `&baseProject{Archived: true}` (all other writable fields
at their zero values), then calls `UpdateProject`. -/
def Client.DeleteProject (c : Client) (p : Project) :
    Project × List ProjectWrite :=
  let p' : Project := { p with base := some { baseProjectZero with Archived := true } }
  (p', c.UpdateProject p')

/-- The shared per-tag loop body of `Client.CreateUserTags` and
`Client.CreateProjectTags` (the two Go functions contain this same loop,
differing only in the URL and the tag list): for each tag in order, marshal
its `baseTag` (`mkBody`, total for this type), build fetch options, perform
one `Fetch`, read the body and decode it into the tag (`dec` models
`json.Unmarshal`); return on the first failure.  Result: the `resp` named
return (the latest response received, if any), the error, the stream cursor,
and the number of `Fetch` invocations performed. -/
def createTagsLoop (dec : String → Except String Unit)
    (mkBody : Option baseTag → String) (url : String)
    (headers : List (String × String)) (maxRetries : Int)
    (rs : Nat → Response) :
    List Tag → Option Response → Nat →
      Option Response × Option CallError × Nat × Nat
  | [], resp, i => (resp, none, i, 0)
  | t :: ts, resp, i =>
    match NewFetchOpts url "POST" (mkBody t.base) headers maxRetries with
    | .error s => (resp, some (.optsErr s), i, 0)
    | .ok fo =>
      let out := fo.Fetch rs i
      match out.err with
      | some e => (some out.resp, some (.fetchErr e), out.next, 1)
      | none =>
        match dec out.resp.Body with
        | .error s => (some out.resp, some (.decodeErr s), out.next, 1)
        | .ok _ =>
          let r := createTagsLoop dec mkBody url headers maxRetries rs ts
            (some out.resp) out.next
          (r.1, r.2.1, r.2.2.1, 1 + r.2.2.2)

/-- `Client.CreateUserTags`: one `POST /users/<id>/tags` per tag of
`u.Tags.Data`, in order, aborting on the first failure. -/
def Client.CreateUserTags (dec : String → Except String Unit)
    (mkBody : Option baseTag → String) (c : Client) (u : User)
    (rs : Nat → Response) (i : Nat) :
    Option Response × Option CallError × Nat × Nat :=
  createTagsLoop dec mkBody (c.env ++ "/users/" ++ toString u.ID ++ "/tags")
    [("auth", c.token)] c.MaxRetries rs u.Tags.Data none i

/-- `Client.CreateProjectTags`: one `POST /projects/<id>/tags` per tag of
`p.Tags.Data`, in order, aborting on the first failure. -/
def Client.CreateProjectTags (dec : String → Except String Unit)
    (mkBody : Option baseTag → String) (c : Client) (p : Project)
    (rs : Nat → Response) (i : Nat) :
    Option Response × Option CallError × Nat × Nat :=
  createTagsLoop dec mkBody (c.env ++ "/projects/" ++ toString p.ID ++ "/tags")
    [("auth", c.token)] c.MaxRetries rs p.Tags.Data none i

/-- `Client.GetProjects`: initialize `&Projects{Paging: &Paging{}}`, build
the query URL, construct fetch options, fetch, read the body, decode
(`dec` models `json.Unmarshal` of the body into the collection); on any
error return the initial collection together with that error.  Result:
the collection, the response (when one was received), the error and the
stream cursor. -/
def Client.GetProjects (dec : String → Except String Projects) (c : Client)
    (opts : List (String × String)) (rs : Nat → Response) (i : Nat) :
    Projects × Option Response × Option CallError × Nat :=
  let init : Projects := ⟨[], some emptyPaging⟩
  match NewFetchOpts (c.env ++ "/projects?" ++ queryfy opts) "GET" ""
      [("auth", c.token)] c.MaxRetries with
  | .error s => (init, none, some (.optsErr s), i)
  | .ok fo =>
    let out := fo.Fetch rs i
    match out.err with
    | some e => (init, some out.resp, some (.fetchErr e), out.next)
    | none =>
      match dec out.resp.Body with
      | .error s => (init, some out.resp, some (.decodeErr s), out.next)
      | .ok ps => (ps, some out.resp, none, out.next)

/-- The pagination loop of `Client.GetAllProjects`, with an explicit fuel
bound on the number of iterations (`none` means the model assigns no result:
the Go loop would still be running, or it dereferenced a nil `Paging`).
Mirrors the Go loop including its `err` variable: the loop condition
consults `projects.Paging.HasNext()`; each iteration writes `opts["page"]`,
fetches the page, assigns `resp`, and checks the OUTER `err` variable
(`errV` here, not the fresh `newErr`) before accumulating. -/
def getAllProjectsLoop (dec : String → Except String Projects) (c : Client)
    (rs : Nat → Response) :
    Nat → Projects → Option Response → Option CallError →
      List (String × String) → Nat →
      Option (Projects × Option Response × Option CallError ×
        List (String × String) × Nat)
  | fuel, projects, resp, errV, opts, i =>
    match projects.Paging with
    | none => none
    | some pg =>
      if pg.HasNext = false then some (projects, resp, errV, opts, i)
      else
        match fuel with
        | 0 => none
        | fuel + 1 =>
          let opts1 := mapSet opts "page" (toString pg.GetNextPage)
          let r := c.GetProjects dec opts1 rs i
          if errV.isSome then
            some (projects, r.2.1, r.2.2.1, opts1, r.2.2.2)
          else
            getAllProjectsLoop dec c rs fuel
              ⟨projects.Data ++ r.1.Data, r.1.Paging⟩ r.2.1 errV opts1 r.2.2.2

/-- `Client.GetAllProjects`: write `opts["per_page"] = "201"`, fetch the
first page, return on error, then run the pagination loop.  The final
options list is returned as well (Go mutates the caller's map in place). -/
def Client.GetAllProjects (dec : String → Except String Projects) (c : Client)
    (opts : List (String × String)) (rs : Nat → Response) (i : Nat)
    (fuel : Nat) :
    Option (Projects × Option Response × Option CallError ×
      List (String × String) × Nat) :=
  let opts1 := mapSet opts "per_page" "201"
  let r := c.GetProjects dec opts1 rs i
  if r.2.2.1.isSome then some (r.1, r.2.1, r.2.2.1, opts1, r.2.2.2)
  else getAllProjectsLoop dec c rs fuel r.1 r.2.1 r.2.2.1 opts1 r.2.2.2

/-- `Client.GetLeaveTypes`: like `Client.GetProjects` but the initial
collection is the zero value `&LeaveTypes{}` whose `Paging` pointer is
nil. -/
def Client.GetLeaveTypes (dec : String → Except String LeaveTypes)
    (c : Client) (opts : List (String × String)) (rs : Nat → Response)
    (i : Nat) :
    LeaveTypes × Option Response × Option CallError × Nat :=
  let init : LeaveTypes := ⟨[], none⟩
  match NewFetchOpts (c.env ++ "/leave_types?" ++ queryfy opts) "GET" ""
      [("auth", c.token)] c.MaxRetries with
  | .error s => (init, none, some (.optsErr s), i)
  | .ok fo =>
    let out := fo.Fetch rs i
    match out.err with
    | some e => (init, some out.resp, some (.fetchErr e), out.next)
    | none =>
      match dec out.resp.Body with
      | .error s => (init, some out.resp, some (.decodeErr s), out.next)
      | .ok ps => (ps, some out.resp, none, out.next)

/-- The pagination loop of `Client.GetAllLeaveTypes`
(see `getAllProjectsLoop`). -/
def getAllLeaveTypesLoop (dec : String → Except String LeaveTypes)
    (c : Client) (rs : Nat → Response) :
    Nat → LeaveTypes → Option Response → Option CallError →
      List (String × String) → Nat →
      Option (LeaveTypes × Option Response × Option CallError ×
        List (String × String) × Nat)
  | fuel, leaveTypes, resp, errV, opts, i =>
    match leaveTypes.Paging with
    | none => none
    | some pg =>
      if pg.HasNext = false then some (leaveTypes, resp, errV, opts, i)
      else
        match fuel with
        | 0 => none
        | fuel + 1 =>
          let opts1 := mapSet opts "page" (toString pg.GetNextPage)
          let r := c.GetLeaveTypes dec opts1 rs i
          if errV.isSome then
            some (leaveTypes, r.2.1, r.2.2.1, opts1, r.2.2.2)
          else
            getAllLeaveTypesLoop dec c rs fuel
              ⟨leaveTypes.Data ++ r.1.Data, r.1.Paging⟩ r.2.1 errV opts1
              r.2.2.2

/-- `Client.GetAllLeaveTypes`: write `opts["per_page"] = "50"`, fetch the
first page, return on error, then run the pagination loop. -/
def Client.GetAllLeaveTypes (dec : String → Except String LeaveTypes)
    (c : Client) (opts : List (String × String)) (rs : Nat → Response)
    (i : Nat) (fuel : Nat) :
    Option (LeaveTypes × Option Response × Option CallError ×
      List (String × String) × Nat) :=
  let opts1 := mapSet opts "per_page" "50"
  let r := c.GetLeaveTypes dec opts1 rs i
  if r.2.2.1.isSome then some (r.1, r.2.1, r.2.2.1, opts1, r.2.2.2)
  else getAllLeaveTypesLoop dec c rs fuel r.1 r.2.1 r.2.2.1 opts1 r.2.2.2

/-- C3: `Paging.HasNext` returns `false` exactly when `Next` is the empty
string or the literal string `"null"`, and `true` for every other string. -/
theorem C3_hasNext_false_iff (p : Paging) :
    p.HasNext = false ↔ (p.Next = "" ∨ p.Next = "null") := by
  simp [Paging.HasNext]
  tauto

/-- C7: constructing a client with an environment other than the production
or staging constant fails with the configuration error, and constructing
fetch options with an empty URL fails with the configuration error.  Both
constructors are pure (they consume no response stream), so the failure
happens with no network request attempted. -/
theorem C7_config_errors (token env : String) (h1 : env ≠ Production)
    (h2 : env ≠ Staging) (method body : String)
    (headers : List (String × String)) (n : Int) :
    NewClient token env =
      .error ("env must be either " ++ Production ++ ", or " ++ Staging) ∧
    NewFetchOpts "" method body headers n = .error "URL cannot be empty" := by
  constructor
  · simp [NewClient, h1, h2]
  · simp [NewFetchOpts]

/-- C7 witness: `NewClient` and `NewFetchOpts` fail on the concrete invalid
configuration `env = "dev"`, URL `""`. -/
theorem C7_config_errors_witness :
    ("dev" ≠ Production ∧ "dev" ≠ Staging) ∧
    (NewClient "tok" "dev" =
      .error ("env must be either " ++ Production ++ ", or " ++ Staging) ∧
     NewFetchOpts "" "GET" "" [] 3 = .error "URL cannot be empty") :=
  ⟨⟨by decide, by decide⟩,
   C7_config_errors "tok" "dev" (by decide) (by decide) "GET" "" [] 3⟩

/-- C9: with a non-empty URL and an empty method, `NewFetchOpts` succeeds,
sets the method to `"GET"`, and stores the URL, body, headers and retry
budget unchanged. -/
theorem C9_default_method (url body : String) (headers : List (String × String))
    (n : Int) (h : url ≠ "") :
    NewFetchOpts url "" body headers n =
      .ok { URL := url, Method := "GET", Body := body, Headers := headers,
            MaxRetries := n } := by
  simp [NewFetchOpts, h]

/-- C9 witness: concrete call with URL `"u"`, empty method. -/
theorem C9_default_method_witness :
    ("u" ≠ "") ∧
    NewFetchOpts "u" "" "b" [("k", "v")] 2 =
      .ok { URL := "u", Method := "GET", Body := "b", Headers := [("k", "v")],
            MaxRetries := 2 } :=
  ⟨by decide, C9_default_method "u" "b" [("k", "v")] 2 (by decide)⟩

/-- Bookkeeping facts about `fetchAux`, for every budget and cursor: the
final cursor advances by exactly the number of issued requests, the returned
response is the last response received, and any returned error is a
terminal error built from the returned response — either the
`Non OK status Code` error embedding its status and body, or the
status-only `could not parse response text` error produced when the body
had already been drained and closed. -/
theorem fetchAux_sound (rs : Nat → Response) :
    ∀ b i, (fetchAux rs b i).next = i + (fetchAux rs b i).requests ∧
      (fetchAux rs b i).resp = rs ((fetchAux rs b i).next - 1) ∧
      ∀ e, (fetchAux rs b i).err = some e →
        e = FetchError.nonOK (fetchAux rs b i).resp.StatusCode
              (fetchAux rs b i).resp.Body ∨
        e = FetchError.nonOKUnreadable (fetchAux rs b i).resp.StatusCode := by
  intro b
  induction b using Nat.strong_induction_on with
  | _ b ih =>
    intro i
    rcases b with _ | _ | b
    · simp only [fetchAux]
      split <;> simp [FetchOut.requests, Event.isRequest]
    · simp only [fetchAux]
      split <;> split <;> try split
      all_goals
        refine ⟨?_, ?_, ?_⟩ <;>
          simp_all [FetchOut.requests, Event.isRequest, List.countP_cons]
    · obtain ⟨h1n, h1r, h1e⟩ := ih (b + 1) (by omega) (i + 1)
      simp only [fetchAux]
      split
      · split
        · obtain ⟨h2n, h2r, h2e⟩ :=
            ih b (by omega) ((fetchAux rs (b + 1) (i + 1)).next)
          refine ⟨?_, ?_, ?_⟩ <;>
            simp_all [FetchOut.requests, Event.isRequest, List.countP_cons,
              List.countP_append] <;>
            try omega
          try exact h2e
        · refine ⟨?_, ?_, ?_⟩ <;>
            simp_all [FetchOut.requests, Event.isRequest, List.countP_cons] <;>
            try omega
          try exact h1e
      · split
        · refine ⟨?_, ?_, ?_⟩ <;>
            simp_all [FetchOut.requests, Event.isRequest, List.countP_cons] <;>
            try omega
          try exact h1e
        · simp [FetchOut.requests, Event.isRequest]

/-- When no received response has status 429, `fetchAux` with budget `b`
issues at most `b + 1` requests (only the general-failure branch can
recurse, consuming one budget unit per extra request). -/
theorem fetchAux_requests_le (rs : Nat → Response)
    (h429 : ∀ j, (rs j).StatusCode ≠ 429) :
    ∀ b i, (fetchAux rs b i).requests ≤ b + 1 := by
  intro b
  induction b using Nat.strong_induction_on with
  | _ b ih =>
    intro i
    rcases b with _ | _ | b
    · simp only [fetchAux]
      split <;> simp [FetchOut.requests, Event.isRequest]
    · simp only [fetchAux]
      split <;> try split
      all_goals try split
      all_goals simp_all [FetchOut.requests, Event.isRequest, List.countP_cons]
    · have hA := ih (b + 1) (by omega) (i + 1)
      simp only [fetchAux]
      split <;> try split
      all_goals simp_all [FetchOut.requests, Event.isRequest, List.countP_cons]

/-- C1 (amended): for a request specification with `maxRetries = N`,
`Fetch` issues at most `N + 1` requests in total PROVIDED no received
response has status 429 (when 429 responses occur, the nested
429-then-general retry can exceed the bound — see the counterexample); and
unconditionally, the returned response is the last response received (the
cursor advances by exactly the number of issued requests) and a non-nil
returned error is a terminal error built from that last response: it embeds
its status code, and either embeds its body (`Non OK status Code`, fresh
body read) or is the status-only `could not parse response text` error
(body already drained and closed by the 429 branch's nested terminal
processing). -/
theorem C1_retry_bound_and_error (o : FetchOpts) (N : Nat)
    (hN : o.MaxRetries = (N : Int)) (rs : Nat → Response) (i : Nat) :
    ((∀ j, (rs j).StatusCode ≠ 429) → (o.Fetch rs i).requests ≤ N + 1) ∧
    (o.Fetch rs i).next = i + (o.Fetch rs i).requests ∧
    (o.Fetch rs i).resp = rs ((o.Fetch rs i).next - 1) ∧
    ∀ e, (o.Fetch rs i).err = some e →
      e = FetchError.nonOK (o.Fetch rs i).resp.StatusCode
            (o.Fetch rs i).resp.Body ∨
      e = FetchError.nonOKUnreadable (o.Fetch rs i).resp.StatusCode := by
  have hs := fetchAux_sound rs o.MaxRetries.toNat i
  refine ⟨fun h429 => ?_, hs.1, hs.2.1, hs.2.2⟩
  have hb := fetchAux_requests_le rs h429 o.MaxRetries.toNat i
  simpa [FetchOpts.Fetch, hN] using hb

/-- C1 witness: a concrete 429-free run (`maxRetries = 1`, all responses
500) satisfying the hypotheses and the bound. -/
theorem C1_retry_bound_and_error_witness :
    ((⟨"u", "GET", "", [], 1⟩ : FetchOpts).MaxRetries = ((1 : Nat) : Int)) ∧
    ((∀ j : Nat, ((fun _ : Nat => (⟨500, "e"⟩ : Response)) j).StatusCode ≠ 429) →
      (FetchOpts.Fetch ⟨"u", "GET", "", [], 1⟩
        (fun _ => ⟨500, "e"⟩) 0).requests ≤ 1 + 1) :=
  ⟨rfl, (C1_retry_bound_and_error ⟨"u", "GET", "", [], 1⟩ 1 rfl
    (fun _ => ⟨500, "e"⟩) 0).1⟩

/-- C1 counterexample: with `maxRetries = 2` and every response a 429, the
claimed bound of `N + 1 = 3` requests fails — `Fetch` issues 4 requests
(the 429 branch retries, and the general-failure branch then retries the
still-failing result again from the same invocation). -/
theorem C1_counterexample :
    ¬ ((FetchOpts.Fetch ⟨"u", "GET", "", [], 2⟩
        (fun _ => ⟨429, "x"⟩) 0).requests ≤ 2 + 1) := by
  decide

/-- C4: whenever the response received for the current request has a status
in [200,299], `Fetch` returns exactly that response with no error and makes
no further request, regardless of the remaining retry budget. -/
theorem C4_success_no_error (rs : Nat → Response) (i : Nat)
    (h : 200 ≤ (rs i).StatusCode ∧ (rs i).StatusCode ≤ 299) (o : FetchOpts) :
    o.Fetch rs i = ⟨rs i, none, i + 1, [Event.request]⟩ := by
  show fetchAux rs o.MaxRetries.toNat i = _
  generalize o.MaxRetries.toNat = b
  rcases b with _ | _ | b
  · simp only [fetchAux]
    rw [if_neg (by omega)]
  · simp only [fetchAux]
    rw [if_neg (by omega), if_neg (by omega)]
  · simp only [fetchAux]
    rw [if_neg (by omega), if_neg (by omega)]

/-- C4 witness: a concrete 204 response with budget 5. -/
theorem C4_success_no_error_witness :
    (200 ≤ ((fun _ : Nat => (⟨204, "No Content"⟩ : Response)) 0).StatusCode ∧
      ((fun _ : Nat => (⟨204, "No Content"⟩ : Response)) 0).StatusCode ≤ 299) ∧
    FetchOpts.Fetch ⟨"u", "GET", "", [], 5⟩ (fun _ => ⟨204, "No Content"⟩) 0 =
      ⟨⟨204, "No Content"⟩, none, 1, [Event.request]⟩ :=
  ⟨by decide, C4_success_no_error (fun _ => ⟨204, "No Content"⟩) 0
    (by decide) ⟨"u", "GET", "", [], 5⟩⟩

/-- C8: on a received 429 response, (a) with remaining budget `b + 1 > 0`
the budget is decremented and the request re-issued after a 10-second wait —
the trace begins with the request, the 10-second sleep, and then the entire
trace of the re-issued fetch with budget `b`, with the 429 branch evaluated
before the general non-2xx classification (whatever the general branch
appends comes after); (b) with remaining budget 0 the 429 response falls
through to the general-failure branch and proceeds straight to the terminal
`Non OK status Code` error: one request, no sleep, no retry. -/
theorem C8_rate_limited_retry (rs : Nat → Response) (i : Nat)
    (h429 : (rs i).StatusCode = 429) :
    (∀ b : Nat, ∃ rest, (fetchAux rs (b + 1) i).trace =
        Event.request :: Event.sleep 10 ::
          (fetchAux rs b (i + 1)).trace ++ rest) ∧
    fetchAux rs 0 i =
      ⟨rs i, some (FetchError.nonOK (rs i).StatusCode (rs i).Body), i + 1,
        [Event.request]⟩ := by
  constructor
  · intro b
    rcases b with _ | b
    · simp only [fetchAux]
      rw [if_pos h429]
      split
      · exact ⟨[], by simp⟩
      · exact ⟨[], by simp⟩
    · simp only [fetchAux]
      rw [if_pos h429]
      split
      · exact ⟨Event.sleep 2 ::
          (fetchAux rs b (fetchAux rs (b + 1) (i + 1)).next).trace, by simp⟩
      · exact ⟨[], by simp⟩
  · simp only [fetchAux]
    rw [if_pos (by omega)]

/-- C8 witness: a concrete all-429 stream. -/
theorem C8_rate_limited_retry_witness :
    (((fun _ : Nat => (⟨429, "x"⟩ : Response)) 0).StatusCode = 429) ∧
    ((∀ b : Nat, ∃ rest, (fetchAux (fun _ => ⟨429, "x"⟩) (b + 1) 0).trace =
        Event.request :: Event.sleep 10 ::
          (fetchAux (fun _ => ⟨429, "x"⟩) b 1).trace ++ rest) ∧
     fetchAux (fun _ => ⟨429, "x"⟩) 0 0 =
       ⟨⟨429, "x"⟩, some (FetchError.nonOK 429 "x"), 1, [Event.request]⟩) :=
  ⟨rfl, C8_rate_limited_retry (fun _ => ⟨429, "x"⟩) 0 rfl⟩

/-- C5 (amended): `DeleteUser` performs exactly one update call whose
serialized body has the archived flag true and every other writable field
equal to the value the caller had set; `DeleteProject` also performs exactly
one update call with the archived flag true, but its body REPLACES the
writable sub-object with `&baseProject{Archived: true}`, so every other
writable field is reset to its zero value regardless of what the caller had
set (see the counterexample). -/
theorem C5_archive_on_delete (c : Client) (u : User) (b : baseUser)
    (hu : u.base = some b) (p : Project) :
    c.DeleteUser u =
      some ({ u with base := some { b with Archived := true } },
        [{ url := c.env ++ "/users/" ++ toString u.ID, method := "PUT",
           body := some { b with Archived := true } }]) ∧
    c.DeleteProject p =
      ({ p with base := some { baseProjectZero with Archived := true } },
        [{ url := c.env ++ "/projects/" ++ toString p.ID, method := "PUT",
           body := some { baseProjectZero with Archived := true } }]) := by
  constructor
  · simp [Client.DeleteUser, hu, Client.UpdateUser]
  · simp [Client.DeleteProject, Client.UpdateProject]

/-- C5 witness: concrete user (base present) and project. -/
theorem C5_archive_on_delete_witness :
    ((⟨some ⟨false, "", "", "", "", "", "", "", "", 0.0⟩, 3,
        ⟨[], none⟩⟩ : User).base =
      some ⟨false, "", "", "", "", "", "", "", "", 0.0⟩) ∧
    (Client.DeleteUser ⟨"t", Staging, 0⟩
        ⟨some ⟨false, "", "", "", "", "", "", "", "", 0.0⟩, 3, ⟨[], none⟩⟩ =
      some (⟨some ⟨true, "", "", "", "", "", "", "", "", 0.0⟩, 3, ⟨[], none⟩⟩,
        [⟨Staging ++ "/users/" ++ toString (3 : Int), "PUT",
          some ⟨true, "", "", "", "", "", "", "", "", 0.0⟩⟩]) ∧
     Client.DeleteProject ⟨"t", Staging, 0⟩ ⟨none, 4, ⟨[], none⟩⟩ =
      (⟨some ⟨true, "", "", "", "", "", "", "", ""⟩, 4, ⟨[], none⟩⟩,
        [⟨Staging ++ "/projects/" ++ toString (4 : Int), "PUT",
          some ⟨true, "", "", "", "", "", "", "", ""⟩⟩])) :=
  ⟨rfl, C5_archive_on_delete ⟨"t", Staging, 0⟩
    ⟨some ⟨false, "", "", "", "", "", "", "", "", 0.0⟩, 3, ⟨[], none⟩⟩
    ⟨false, "", "", "", "", "", "", "", "", 0.0⟩ rfl ⟨none, 4, ⟨[], none⟩⟩⟩

/-- C5 counterexample: a project whose caller had set the writable `Name`
field to `"keep"`; the single update call issued by `DeleteProject`
serializes a body whose `Name` is `""`, so a writable field other than the
archived flag changed. -/
theorem C5_counterexample :
    (Client.DeleteProject ⟨"t", Staging, 0⟩
        ⟨some { baseProjectZero with Name := "keep" }, 7, ⟨[], none⟩⟩).2 =
      [⟨Staging ++ "/projects/" ++ toString (7 : Int), "PUT",
        some { baseProjectZero with Archived := true }⟩] ∧
    ({ baseProjectZero with Archived := true } : baseProject).Name ≠
      ({ baseProjectZero with Name := "keep" } : baseProject).Name := by
  constructor
  · rfl
  · decide

/-- A string with a non-empty suffix is non-empty. -/
theorem str_append_ne_empty (a b : String) (hb : b ≠ "") : a ++ b ≠ "" := by
  intro h
  apply hb
  have hd := congrArg String.data h
  simp only [String.data_append] at hd
  have : b.data = [] := by
    rcases List.append_eq_nil.mp (by simpa using hd) with ⟨_, h2⟩
    exact h2
  cases b
  simp_all

/-- With retry budget 0 a fetch consumes exactly one response. -/
theorem fetchAux_zero_next (rs : Nat → Response) (j : Nat) :
    (fetchAux rs 0 j).next = j + 1 := by
  simp only [fetchAux]
  split <;> rfl

/-- C6: batch tag creation issues one `Fetch` call per tag in list order and
aborts on the first per-item failure: with three tags where the first call
succeeds (and decodes) and the second call fails, both `CreateUserTags` and
`CreateProjectTags` perform exactly 2 `Fetch` calls, return the second
call's response, and return the second call's failure as the error; with
retry budget 0 each `Fetch` call is a single HTTP request, so exactly 2
HTTP requests are observed (the cursor ends at `i + 2`). -/
theorem C6_batch_tags_abort (dec : String → Except String Unit)
    (mkBody : Option baseTag → String) (c : Client) (u : User) (p : Project)
    (t1 t2 t3 : Tag) (hu : u.Tags.Data = [t1, t2, t3])
    (hp : p.Tags.Data = [t1, t2, t3]) (rs : Nat → Response) (i : Nat)
    (h1 : (fetchAux rs c.MaxRetries.toNat i).err = none)
    (hdec : dec (fetchAux rs c.MaxRetries.toNat i).resp.Body = .ok ())
    (e : FetchError)
    (h2 : (fetchAux rs c.MaxRetries.toNat
            (fetchAux rs c.MaxRetries.toNat i).next).err = some e) :
    Client.CreateUserTags dec mkBody c u rs i =
      (some (fetchAux rs c.MaxRetries.toNat
          (fetchAux rs c.MaxRetries.toNat i).next).resp,
        some (.fetchErr e),
        (fetchAux rs c.MaxRetries.toNat
          (fetchAux rs c.MaxRetries.toNat i).next).next, 2) ∧
    Client.CreateProjectTags dec mkBody c p rs i =
      (some (fetchAux rs c.MaxRetries.toNat
          (fetchAux rs c.MaxRetries.toNat i).next).resp,
        some (.fetchErr e),
        (fetchAux rs c.MaxRetries.toNat
          (fetchAux rs c.MaxRetries.toNat i).next).next, 2) ∧
    (c.MaxRetries = 0 →
      (fetchAux rs c.MaxRetries.toNat
        (fetchAux rs c.MaxRetries.toNat i).next).next = i + 2) := by
  have hurlU : (c.env ++ "/users/" ++ toString u.ID ++ "/tags") ≠ "" :=
    str_append_ne_empty _ "/tags" (by decide)
  have hurlP : (c.env ++ "/projects/" ++ toString p.ID ++ "/tags") ≠ "" :=
    str_append_ne_empty _ "/tags" (by decide)
  refine ⟨?_, ?_, ?_⟩
  · simp [Client.CreateUserTags, hu, createTagsLoop, NewFetchOpts, hurlU,
      FetchOpts.Fetch, h1, hdec, h2]
  · simp [Client.CreateProjectTags, hp, createTagsLoop, NewFetchOpts, hurlP,
      FetchOpts.Fetch, h1, hdec, h2]
  · intro h0
    have hz : c.MaxRetries.toNat = 0 := by simp [h0]
    rw [hz, fetchAux_zero_next rs i, fetchAux_zero_next rs (i + 1)]

/-- C6 witness: three tags, one 200 response then 500 responses, retry
budget 0. -/
theorem C6_batch_tags_abort_witness :
    ((⟨none, 1, ⟨[⟨some ⟨"a"⟩, 0⟩, ⟨some ⟨"b"⟩, 0⟩, ⟨some ⟨"c"⟩, 0⟩],
        none⟩⟩ : User).Tags.Data =
      [⟨some ⟨"a"⟩, 0⟩, ⟨some ⟨"b"⟩, 0⟩, ⟨some ⟨"c"⟩, 0⟩]) ∧
    Client.CreateUserTags (fun _ : String => .ok ())
        (fun _ : Option baseTag => "") ⟨"t", Staging, 0⟩
        ⟨none, 1, ⟨[⟨some ⟨"a"⟩, 0⟩, ⟨some ⟨"b"⟩, 0⟩, ⟨some ⟨"c"⟩, 0⟩], none⟩⟩
        (fun n : Nat => if n == 0 then ⟨200, "ok"⟩ else ⟨500, "bad"⟩) 0 =
      (some ⟨500, "bad"⟩, some (.fetchErr (.nonOK 500 "bad")), 2, 2) :=
  ⟨rfl,
    (C6_batch_tags_abort (fun _ => .ok ()) (fun _ => "") ⟨"t", Staging, 0⟩
      ⟨none, 1, ⟨[⟨some ⟨"a"⟩, 0⟩, ⟨some ⟨"b"⟩, 0⟩, ⟨some ⟨"c"⟩, 0⟩], none⟩⟩
      ⟨none, 2, ⟨[⟨some ⟨"a"⟩, 0⟩, ⟨some ⟨"b"⟩, 0⟩, ⟨some ⟨"c"⟩, 0⟩], none⟩⟩
      ⟨some ⟨"a"⟩, 0⟩ ⟨some ⟨"b"⟩, 0⟩ ⟨some ⟨"c"⟩, 0⟩ rfl rfl
      (fun n => if n == 0 then ⟨200, "ok"⟩ else ⟨500, "bad"⟩) 0 rfl rfl
      (.nonOK 500 "bad") rfl).1⟩

/-- Setting a key then reading it back yields the written value. -/
theorem mapGet_mapSet_self (m : List (String × String)) (k v : String) :
    mapGet (mapSet m k v) k = some v := by
  induction m with
  | nil => simp [mapSet, mapGet]
  | cons kv rest ih =>
    obtain ⟨a, b⟩ := kv
    by_cases h : a = k <;> simp [mapSet, mapGet, h, ih]

/-- Setting a key leaves every other key's binding unchanged. -/
theorem mapGet_mapSet_ne (m : List (String × String)) (k k' v : String)
    (h : k ≠ k') :
    mapGet (mapSet m k v) k' = mapGet m k' := by
  induction m with
  | nil => simp [mapSet, mapGet, h]
  | cons kv rest ih =>
    obtain ⟨a, b⟩ := kv
    by_cases h2 : a = k <;> simp [mapSet, mapGet, h, h2, ih]

/-- The `GetAllProjects` pagination loop only ever writes the `"page"` key,
so the `"per_page"` binding of the options map is preserved by the loop. -/
theorem getAllProjectsLoop_perPage (dec : String → Except String Projects)
    (c : Client) (rs : Nat → Response) :
    ∀ (fuel : Nat) (projects : Projects) (resp : Option Response)
      (errV : Option CallError) (opts : List (String × String)) (i : Nat)
      out,
      getAllProjectsLoop dec c rs fuel projects resp errV opts i =
        some out →
      mapGet out.2.2.2.1 "per_page" = mapGet opts "per_page" := by
  intro fuel
  induction fuel with
  | zero =>
    intro projects resp errV opts i out h
    rw [getAllProjectsLoop] at h
    cases hpg : projects.Paging with
    | none => rw [hpg] at h; simp at h
    | some pg =>
      rw [hpg] at h
      dsimp only at h
      by_cases hn : pg.HasNext = false
      · rw [if_pos hn] at h
        injection h with h
        subst h
        rfl
      · rw [if_neg hn] at h
        simp at h
  | succ f ih =>
    intro projects resp errV opts i out h
    rw [getAllProjectsLoop] at h
    cases hpg : projects.Paging with
    | none => rw [hpg] at h; simp at h
    | some pg =>
      rw [hpg] at h
      dsimp only at h
      by_cases hn : pg.HasNext = false
      · rw [if_pos hn] at h
        injection h with h
        subst h
        rfl
      · rw [if_neg hn] at h
        by_cases he : errV.isSome
        · rw [if_pos he] at h
          injection h with h
          subst h
          dsimp only
          rw [mapGet_mapSet_ne _ _ _ _ (by decide)]
        · rw [if_neg he] at h
          rw [ih _ _ _ _ _ _ h, mapGet_mapSet_ne _ _ _ _ (by decide)]

/-- The `GetAllLeaveTypes` pagination loop only ever writes the `"page"`
key (see `getAllProjectsLoop_perPage`). -/
theorem getAllLeaveTypesLoop_perPage (dec : String → Except String LeaveTypes)
    (c : Client) (rs : Nat → Response) :
    ∀ (fuel : Nat) (leaveTypes : LeaveTypes) (resp : Option Response)
      (errV : Option CallError) (opts : List (String × String)) (i : Nat)
      out,
      getAllLeaveTypesLoop dec c rs fuel leaveTypes resp errV opts i =
        some out →
      mapGet out.2.2.2.1 "per_page" = mapGet opts "per_page" := by
  intro fuel
  induction fuel with
  | zero =>
    intro leaveTypes resp errV opts i out h
    rw [getAllLeaveTypesLoop] at h
    cases hpg : leaveTypes.Paging with
    | none => rw [hpg] at h; simp at h
    | some pg =>
      rw [hpg] at h
      dsimp only at h
      by_cases hn : pg.HasNext = false
      · rw [if_pos hn] at h
        injection h with h
        subst h
        rfl
      · rw [if_neg hn] at h
        simp at h
  | succ f ih =>
    intro leaveTypes resp errV opts i out h
    rw [getAllLeaveTypesLoop] at h
    cases hpg : leaveTypes.Paging with
    | none => rw [hpg] at h; simp at h
    | some pg =>
      rw [hpg] at h
      dsimp only at h
      by_cases hn : pg.HasNext = false
      · rw [if_pos hn] at h
        injection h with h
        subst h
        rfl
      · rw [if_neg hn] at h
        by_cases he : errV.isSome
        · rw [if_pos he] at h
          injection h with h
          subst h
          dsimp only
          rw [mapGet_mapSet_ne _ _ _ _ (by decide)]
        · rw [if_neg he] at h
          rw [ih _ _ _ _ _ _ h, mapGet_mapSet_ne _ _ _ _ (by decide)]

/-- C10 (amended): each fetch-all operation writes the operation's page-size
constant into the caller's options map under `"per_page"` before the first
fetch and writes `"page"` on each loop iteration, so whenever the operation
returns, the caller's map holds `"per_page" = "201"` for `GetAllProjects`
and `"per_page" = "50"` for `GetAllLeaveTypes`.  The map need NOT differ
from what was passed in: a caller that already passed exactly those
bindings gets back an identical map (see the counterexample). -/
theorem C10_per_page_overwrite :
    (∀ (dec : String → Except String Projects) (c : Client)
       (opts : List (String × String)) (rs : Nat → Response) (i fuel : Nat)
       out,
       Client.GetAllProjects dec c opts rs i fuel = some out →
       mapGet out.2.2.2.1 "per_page" = some "201") ∧
    (∀ (dec : String → Except String LeaveTypes) (c : Client)
       (opts : List (String × String)) (rs : Nat → Response) (i fuel : Nat)
       out,
       Client.GetAllLeaveTypes dec c opts rs i fuel = some out →
       mapGet out.2.2.2.1 "per_page" = some "50") := by
  constructor
  · intro dec c opts rs i fuel out h
    rw [Client.GetAllProjects] at h
    split at h
    · injection h with h
      subst h
      exact mapGet_mapSet_self opts "per_page" "201"
    · rw [getAllProjectsLoop_perPage _ _ _ _ _ _ _ _ _ _ h]
      exact mapGet_mapSet_self opts "per_page" "201"
  · intro dec c opts rs i fuel out h
    rw [Client.GetAllLeaveTypes] at h
    split at h
    · injection h with h
      subst h
      exact mapGet_mapSet_self opts "per_page" "50"
    · rw [getAllLeaveTypesLoop_perPage _ _ _ _ _ _ _ _ _ _ h]
      exact mapGet_mapSet_self opts "per_page" "50"

/-- C10 witness: concrete single-page runs of both operations, with the
hypotheses discharged by evaluation. -/
theorem C10_per_page_overwrite_witness :
    (Client.GetAllProjects
        (fun _ : String => .ok ⟨[], some ⟨201, 1, "", "", ""⟩⟩)
        ⟨"t", Staging, 0⟩ [] (fun _ : Nat => ⟨200, "one"⟩) 0 2 =
      some (⟨[], some ⟨201, 1, "", "", ""⟩⟩, some ⟨200, "one"⟩, none,
        [("per_page", "201")], 1)) ∧
    mapGet [("per_page", "201")] "per_page" = some "201" ∧
    (Client.GetAllLeaveTypes
        (fun _ : String => .ok ⟨[], some ⟨50, 1, "", "", ""⟩⟩)
        ⟨"t", Staging, 0⟩ [] (fun _ : Nat => ⟨200, "one"⟩) 0 2 =
      some (⟨[], some ⟨50, 1, "", "", ""⟩⟩, some ⟨200, "one"⟩, none,
        [("per_page", "50")], 1)) ∧
    mapGet [("per_page", "50")] "per_page" = some "50" :=
  ⟨rfl, C10_per_page_overwrite.1
      (fun _ : String => .ok ⟨[], some ⟨201, 1, "", "", ""⟩⟩)
      ⟨"t", Staging, 0⟩ [] (fun _ : Nat => ⟨200, "one"⟩) 0 2
      (⟨[], some ⟨201, 1, "", "", ""⟩⟩, some ⟨200, "one"⟩, none,
        [("per_page", "201")], 1) rfl,
    rfl, C10_per_page_overwrite.2
      (fun _ : String => .ok ⟨[], some ⟨50, 1, "", "", ""⟩⟩)
      ⟨"t", Staging, 0⟩ [] (fun _ : Nat => ⟨200, "one"⟩) 0 2
      (⟨[], some ⟨50, 1, "", "", ""⟩⟩, some ⟨200, "one"⟩, none,
        [("per_page", "50")], 1) rfl⟩

/-- C10 counterexample: a caller that already passed
`{"per_page": "201"}` against a single-page server gets back a map EQUAL
to what was passed in, refuting "after the call returns the caller's map
differs from what was passed in". -/
theorem C10_counterexample :
    (Client.GetAllProjects
        (fun _ : String => .ok ⟨[], some ⟨201, 1, "", "", ""⟩⟩)
        ⟨"t", Staging, 0⟩ [("per_page", "201")]
        (fun _ : Nat => ⟨200, "one"⟩) 0 3).map
      (fun out => out.2.2.2.1) = some [("per_page", "201")] := by
  rfl

/-- C2 (code bug): a two-page scenario where page 1 succeeds with
`paging.next = "more"` and the page-2 request fails with status 500 and no
retry budget.  The second conjunct shows the page-2 fetch DID fail, yet
`GetAllProjects` returns error `none` — the loop's `if err != nil` consults
the stale outer `err` (nil) instead of the fresh `newErr`, so the failure
is swallowed: the failed page's zero-valued collection resets the paging,
the loop exits, and the caller sees accumulated data with a nil error. -/
theorem C2_page_error_swallowed :
    Client.GetAllProjects
        (fun s : String => if s = "page1" then
          .ok ⟨[⟨none, 1, ⟨[], none⟩⟩], some ⟨201, 1, "", "", "more"⟩⟩
         else .error "bad")
        ⟨"t", Staging, 0⟩ []
        (fun n : Nat => if n == 0 then ⟨200, "page1"⟩ else ⟨500, "boom"⟩)
        0 5 =
      some (⟨[⟨none, 1, ⟨[], none⟩⟩], some emptyPaging⟩, some ⟨500, "boom"⟩,
        none, [("per_page", "201"), ("page", "2")], 2) ∧
    (fetchAux (fun n : Nat => if n == 0 then ⟨200, "page1"⟩
        else ⟨500, "boom"⟩) 0 1).err =
      some (.nonOK 500 "boom") :=
  ⟨rfl, rfl⟩
